import Mathlib

set_option maxRecDepth 4000

/-!
Verification of the raw-circuit-to-constraint-system compiler and witness
assembler of the gnark FFI backend.  The repository carries two revisions of
the same `main.go`: the file `gnark_backend_ffi/main.go` (namespace `FfiMain`
below) and an unnamed revision (namespace `Part000` below).  They share the
variable-allocation loop and the gate traversal; they differ in the `O` side
of each emitted constraint (a `1 * ZERO` term on a fresh internal variable in
`FfiMain`, the empty linear expression in `Part000`) and in the encoding of
serialized proofs and keys returned across the FFI boundary (raw bytes as a
string in `FfiMain`, hex in `Part000`).
-/

deriving instance DecidableEq for Except

namespace Gnark

/-- Scalar field modulus of bn254 (the fr modulus of gnark-crypto). -/
def frModulus : Nat :=
  21888242871839275222246405745257275088548364400416034343698204186575808495617

/-- Field elements of fr, represented as natural numbers below `frModulus`
where arithmetic happens (the compiler itself only moves them around). -/
abbrev Felt := Nat

/-- Transcribed from the spec data model: a multiplication term of a gate
(struct `MulTerm` of the `structs` package; its declaration file is not under
`src/`, the field names and types are fixed by the spec and by every use in
`main.go`). -/
structure MulTerm where
  coefficient : Felt
  multiplicand : Nat
  multiplier : Nat
deriving DecidableEq

/-- Transcribed from the spec data model: an addition term of a gate
(struct `AddTerm`, same provenance as `MulTerm`). -/
structure AddTerm where
  coefficient : Felt
  sum : Nat
deriving DecidableEq

/-- Transcribed from the spec data model: one gate (struct `RawGate`). -/
structure RawGate where
  mulTerms : List MulTerm
  addTerms : List AddTerm
  constantTerm : Felt
deriving DecidableEq

/-- Transcribed from the spec data model: the deserialized raw circuit
(struct `RawR1CS`).  `publicInputs` holds 1-based uint32 positions. -/
structure RawR1CS where
  gates : List RawGate
  publicInputs : List Nat
  values : List Felt
  numVariables : Nat
  numConstraints : Nat
deriving DecidableEq

/-- A constraint-system variable handle, identifying the allocation call that
produced it: the i-th `AddPublicVariable`, `AddSecretVariable` or
`AddInternalVariable` call on the constraint system. -/
inductive Wire where
  | pub (i : Nat)
  | secret (i : Nat)
  | internal (i : Nat)
deriving DecidableEq

/-- One term of a linear expression: `MakeTerm(&coefficient, wire)`. -/
abbrev LinTerm := Felt × Wire

/-- `constraint.LinearExpression`. -/
abbrev LinearExpression := List LinTerm

/-- `constraint.R1C`: one rank-1 constraint `L * R = O`. -/
structure R1C where
  L : LinearExpression
  R : LinearExpression
  O : LinearExpression
deriving DecidableEq

/-- The observable state of the `cs_bn254.R1CS` under construction: the
counters of the three variable classes and the emitted constraints. -/
structure CS where
  nbPublic : Nat
  nbSecret : Nat
  nbInternal : Nat
  constraints : List R1C
deriving DecidableEq

/-- The single abort cause inside `buildR1CS`: a Go "index out of range"
runtime panic on a slice access. -/
inductive IndexErr where
  | indexOutOfRange
deriving DecidableEq

/-- `COEFFICIENT_ONE := r1cs.FromInterface(1)`. -/
def coeffOne : Felt := 1

/-- State threaded through the value-allocation loop of `buildR1CS`:
the constraint system plus the locals `allVariableIndices` (`table`),
`publicVariables`, `privateVariables`, `nPublicVariables`,
`nPrivateVariables`. -/
structure AllocState where
  cs : CS
  table : List Wire
  publicVariables : List Felt
  privateVariables : List Felt
  nPublicVariables : Nat
  nPrivateVariables : Nat
deriving DecidableEq

/-- The empty constraint system produced by `cs_bn254.NewR1CS` (the capacity
argument only preallocates). -/
def initCS : CS := ⟨0, 0, 0, []⟩

/-- Initial state of the allocation loop. -/
def initAlloc : AllocState := ⟨initCS, [], [], [], 0, 0⟩

/-- The `if` branch of the allocation loop: `r1cs.AddPublicVariable(...)`,
append to `publicVariables`, `nPublicVariables++`. -/
def addPublicVar (st : AllocState) (v : Felt) : AllocState :=
  { st with
    cs := { st.cs with nbPublic := st.cs.nbPublic + 1 }
    table := st.table ++ [Wire.pub st.cs.nbPublic]
    publicVariables := st.publicVariables ++ [v]
    nPublicVariables := st.nPublicVariables + 1 }

/-- The `else` branch of the allocation loop: `r1cs.AddSecretVariable(...)`,
append to `privateVariables`, `nPrivateVariables++`. -/
def addSecretVar (st : AllocState) (v : Felt) : AllocState :=
  { st with
    cs := { st.cs with nbSecret := st.cs.nbSecret + 1 }
    table := st.table ++ [Wire.secret st.cs.nbSecret]
    privateVariables := st.privateVariables ++ [v]
    nPrivateVariables := st.nPrivateVariables + 1 }

/-- The inner loop of the allocation phase, exactly as in both revisions of
`buildR1CS`: for each element of `publicInputs` the branch
`if uint32(i+1) == publicInput` allocates a public variable, and the `else`
branch allocates a secret one.  The branch sits inside this loop in the
source, so it runs once per element of `publicInputs`. -/
def allocInner (i : Nat) (v : Felt) : AllocState → List Nat → AllocState
  | st, [] => st
  | st, p :: ps =>
      allocInner i v
        (if (i + 1) % 4294967296 = p then addPublicVar st v else addSecretVar st v) ps

/-- The outer loop `for i, value := range r.Values`. -/
def allocLoop (pubs : List Nat) : Nat → AllocState → List Felt → AllocState
  | _, st, [] => st
  | i, st, v :: vs => allocLoop pubs (i + 1) (allocInner i v st pubs) vs

/-- The whole allocation phase of `buildR1CS` applied to a raw circuit. -/
def allocOf (r : RawR1CS) : AllocState :=
  allocLoop r.publicInputs 0 initAlloc r.values

/-- Bounds-checked read `r.Values[i]`; Go panics with an index-out-of-range
runtime error when the index is too large. -/
def getValue (vs : List Felt) (i : Nat) : Except IndexErr Felt :=
  if i < vs.length then .ok (vs.getD i 0) else .error .indexOutOfRange

/-- Bounds-checked read `allVariableIndices[sum]`. -/
def getWire (table : List Wire) (i : Nat) : Except IndexErr Wire :=
  if i < table.length then .ok (table.getD i (Wire.internal 0)) else .error .indexOutOfRange

/-- The `for _, mul_term := range gate.MulTerms` loop: read
`r.Values[mul_term.Multiplicand]` and `r.Values[mul_term.Multiplier]` (the
numeric product is computed into a local and never used afterwards), allocate
a fresh internal variable, and append `MakeTerm(&coefficient, productVariable)`
to the accumulator.  Returns the updated internal-variable counter and the
accumulated terms. -/
def processMulTerms (values : List Felt) :
    Nat → LinearExpression → List MulTerm → Except IndexErr (Nat × LinearExpression)
  | nInt, terms, [] => .ok (nInt, terms)
  | nInt, terms, mt :: rest =>
      match getValue values mt.multiplicand, getValue values mt.multiplier with
      | .ok _, .ok _ =>
          processMulTerms values (nInt + 1)
            (terms ++ [(mt.coefficient, Wire.internal nInt)]) rest
      | .error e, _ => .error e
      | .ok _, .error e => .error e

/-- The `for _, add_term := range gate.AddTerms` loop: look up
`allVariableIndices[add_term.Sum]` and append
`MakeTerm(&coefficient, sumVariable)` to the accumulator. -/
def processAddTerms (table : List Wire) :
    LinearExpression → List AddTerm → Except IndexErr LinearExpression
  | terms, [] => .ok terms
  | terms, t :: rest =>
      match getWire table t.sum with
      | .ok w => processAddTerms table (terms ++ [(t.coefficient, w)]) rest
      | .error e => .error e

/-- The `for _, gate := range r.Gates` loop: accumulate the gate's terms
(`terms` starts empty for each gate), then
`r1cs.AddConstraint(constraint.R1C{L: {1 * one}, R: terms, O: oExpr})`.
`oExpr` is the revision-specific `O` side; the gate's `ConstantTerm` is never
read. -/
def processGates (values : List Felt) (table : List Wire) (one : Wire)
    (oExpr : LinearExpression) : CS → List RawGate → Except IndexErr CS
  | cs, [] => .ok cs
  | cs, g :: rest =>
      match processMulTerms values cs.nbInternal [] g.mulTerms with
      | .error e => .error e
      | .ok (n1, terms1) =>
          match processAddTerms table terms1 g.addTerms with
          | .error e => .error e
          | .ok terms2 =>
              processGates values table one oExpr
                { cs with
                  nbInternal := n1
                  constraints := cs.constraints ++ [⟨[(coeffOne, one)], terms2, oExpr⟩] }
                rest

/-- The compiled output of `buildR1CS`: the five returned values, plus the
local variable table (needed to state table-shaped properties). -/
structure BuildOut where
  cs : CS
  publicVariables : List Felt
  privateVariables : List Felt
  nPublicVariables : Nat
  nPrivateVariables : Nat
  table : List Wire
deriving DecidableEq

end Gnark

namespace FfiMain

open Gnark

/-- `buildR1CS` of `src/gnark_backend_ffi/main.go`: allocation loop, then
`ONE := r1cs.AddPublicVariable("ONE")`, `ZERO := r1cs.AddInternalVariable()`,
then one constraint per gate with `L = {1 * ONE}`, `R` the accumulated terms
and `O = {1 * ZERO}`. -/
def buildR1CS (r : RawR1CS) : Except IndexErr BuildOut :=
  let a := allocOf r
  let one := Wire.pub a.cs.nbPublic
  let cs1 : CS := { a.cs with nbPublic := a.cs.nbPublic + 1 }
  let zero := Wire.internal cs1.nbInternal
  let cs2 : CS := { cs1 with nbInternal := cs1.nbInternal + 1 }
  match processGates r.values a.table one [(coeffOne, zero)] cs2 r.gates with
  | .error e => .error e
  | .ok cs3 =>
      .ok ⟨cs3, a.publicVariables, a.privateVariables,
           a.nPublicVariables, a.nPrivateVariables, a.table⟩

end FfiMain

namespace Part000

open Gnark

/-- `buildR1CS` of the unnamed revision: identical allocation loop and gate
traversal, `ONE := r1cs.AddPublicVariable("1")`, no `ZERO` variable, and
`O: constraint.LinearExpression{}` (empty) on every constraint. -/
def buildR1CS (r : RawR1CS) : Except IndexErr BuildOut :=
  let a := allocOf r
  let one := Wire.pub a.cs.nbPublic
  let cs1 : CS := { a.cs with nbPublic := a.cs.nbPublic + 1 }
  match processGates r.values a.table one [] cs1 r.gates with
  | .error e => .error e
  | .ok cs2 =>
      .ok ⟨cs2, a.publicVariables, a.privateVariables,
           a.nPublicVariables, a.nPrivateVariables, a.table⟩

end Part000

namespace Gnark

/-- A gnark `witness.Witness` as observed through this code: the declared
public and secret counts given to `Fill`, and the filled vector. -/
structure GnarkWitness where
  nbPublic : Nat
  nbSecret : Nat
  vector : List Felt
deriving DecidableEq

/-- The goroutine body of `buildWitnesses`: send every element of one vector
over the channel in order (one loop of the producer). -/
def sendAll (acc : List Felt) : List Felt → List Felt
  | [] => acc
  | v :: rest => sendAll (acc ++ [v]) rest

/-- The ordered stream of values the producer goroutine delivers over
`witnessValues` before `close`: the public loop, then the private loop. -/
def producerStream (publicVariables privateVariables : List Felt) : List Felt :=
  sendAll (sendAll [] publicVariables) privateVariables

/-- `buildWitnesses` (identical in both revisions): start the producer
goroutine, create a fresh witness over the bn254 scalar field, and
`witness.Fill(nPublicVariables, nPrivateVariables, witnessValues)`, which
consumes `nPublicVariables + nPrivateVariables` values from the stream. -/
def buildWitnesses (r1cs : CS) (publicVariables privateVariables : List Felt)
    (nPublicVariables nPrivateVariables : Nat) : GnarkWitness :=
  { nbPublic := nPublicVariables
    nbSecret := nPrivateVariables
    vector :=
      (producerStream publicVariables privateVariables).take
        (nPublicVariables + nPrivateVariables) }

/-- `witness.Public()`: the public-only sub-witness, the first `nbPublic`
entries of the vector. -/
def GnarkWitness.publicPart (w : GnarkWitness) : List Felt :=
  w.vector.take w.nbPublic

/-- Value of one hex digit, as accepted by Go `hex.DecodeString` (its
`fromHexChar`): decimal digits, then the lowercase and uppercase letter
ranges, by code point. -/
def hexDigitVal (c : Char) : Option Nat :=
  let n := c.toNat
  if 48 ≤ n ∧ n ≤ 57 then some (n - 48)
  else if 97 ≤ n ∧ n ≤ 102 then some (n - 87)
  else if 65 ≤ n ∧ n ≤ 70 then some (n - 55)
  else none

/-- Go `hex.DecodeString` on a character list: two hex digits per byte, odd
length or a non-hex character is an error. -/
def hexDecodeBytes : List Char → Option (List Nat)
  | [] => some []
  | [_] => none
  | c1 :: c2 :: rest => do
      let h ← hexDigitVal c1
      let l ← hexDigitVal c2
      let bs ← hexDecodeBytes rest
      some ((h * 16 + l) :: bs)

/-- Go `hex.DecodeString`. -/
def hexDecode (s : String) : Option (List Nat) :=
  hexDecodeBytes s.data

/-- Lowercase hex digit character for a value below 16 (the hextable of the
Go hex encoder, by code point). -/
def hexChar (n : Nat) : Char :=
  if n < 10 then Char.ofNat (48 + n) else Char.ofNat (87 + n)

/-- Go `hex.EncodeToString`: two lowercase hex digits per byte. -/
def hexEncode (bs : List Nat) : String :=
  ⟨bs.foldr (fun b acc => hexChar (b / 16 % 16) :: hexChar (b % 16) :: acc) []⟩

/-- Go `bytes.Buffer.String()` on serialized bytes: the bytes passed through
as a character string, unencoded. -/
def rawString (bs : List Nat) : String :=
  ⟨bs.map fun b => Char.ofNat b⟩

/-- Bytes of a Go string (the inverse direction, for raw-string inputs). -/
def stringBytes (s : String) : List Nat :=
  s.data.map Char.toNat

/-- Big-endian byte-list to integer. -/
def bytesToNat (bs : List Nat) : Nat :=
  bs.foldl (fun acc b => acc * 256 + b) 0

/-- `structs.DeserializeFelt`: hex-decode, then `SetBytes` (big-endian value
reduced modulo the fr modulus). -/
def DeserializeFelt (s : String) : Option Felt :=
  (hexDecode s).map fun bs => bytesToNat bs % frModulus

/-- Modelled from the spec: the element payload of
`fr_bn254.Vector.UnmarshalBinary` (gnark-crypto, not part of this
repository) — consecutive 32-byte big-endian field elements, exactly `n` of
them. -/
def parseFelts : Nat → List Nat → Option (List Felt)
  | 0, [] => some []
  | 0, _ :: _ => none
  | n + 1, bs =>
      if 32 ≤ bs.length then
        (parseFelts n (bs.drop 32)).map fun fs => (bytesToNat (bs.take 32) % frModulus) :: fs
      else none

/-- `structs.DeserializeFelts`: hex-decode, then unmarshal the
length-prefixed vector.  Modelled from the spec for the
`Vector.UnmarshalBinary` part: a 4-byte big-endian element count followed by
the fixed-width elements ("`values` is itself a length-prefixed binary blob
of fixed-width field elements, hex-encoded"). -/
def DeserializeFelts (s : String) : Option (List Felt) := do
  let bs ← hexDecode s
  match bs with
  | b0 :: b1 :: b2 :: b3 :: rest =>
      parseFelts (((b0 * 256 + b1) * 256 + b2) * 256 + b3) rest
  | _ => none

/-- Abort causes observable at an FFI entry point: a slice-index panic from
`buildR1CS`, a `log.Fatal` on a JSON/hex/deserialization failure, or a
`log.Fatal` on a backend (setup/prove) failure. -/
inductive GoError where
  | indexOutOfRange
  | decodeError
  | backendError
deriving DecidableEq

/-- Lift an external step that may fail into the entry point's control flow:
`none` is a `log.Fatal` with the given cause. -/
def ofOption (e : GoError) : Option α → Except GoError α
  | some a => .ok a
  | none => .error e

/-- An opaque deserialized groth16 proof (external collaborator object). -/
structure ProofT where
  bytes : List Nat
deriving DecidableEq

/-- An opaque deserialized groth16 verifying key. -/
structure VKT where
  bytes : List Nat
deriving DecidableEq

/-- An opaque deserialized groth16 proving key. -/
structure PKT where
  bytes : List Nat
deriving DecidableEq

/-- An error reported by the external `groth16.Verify` call. -/
inductive BackendErr where
  | failure
deriving DecidableEq

end Gnark

namespace FfiMain

open Gnark

/-- `ProveWithMeta` of `src/gnark_backend_ffi/main.go`, with the external
collaborator steps passed in as oracle arguments: `parse` is the
`json.Unmarshal` outcome, `setup` the `groth16.Setup` outcome, `proveBytes`
the serialized bytes written by `proof.WriteTo` after `groth16.Prove`.  The
returned string is `serialized_proof.String()` — the raw bytes as a string. -/
def ProveWithMeta (parse : Option RawR1CS) (setup : Option PKT)
    (proveBytes : Option (List Nat)) : Except GoError String := do
  let r ← ofOption .decodeError parse
  let o ← (buildR1CS r).mapError fun _ => GoError.indexOutOfRange
  let _w := buildWitnesses o.cs o.publicVariables o.privateVariables
    o.nPublicVariables o.nPrivateVariables
  let _pk ← ofOption .backendError setup
  let bs ← ofOption .backendError proveBytes
  .ok (rawString bs)

/-- `ProveWithPK` of `src/gnark_backend_ffi/main.go`: the proving-key string
is fed to `pk.ReadFrom` directly, byte for byte (no hex decoding), and the
proof is returned as `serialized_proof.String()`. -/
def ProveWithPK (parse : Option RawR1CS) (provingKey : String)
    (readPK : List Nat → Option PKT) (proveBytes : Option (List Nat)) :
    Except GoError String := do
  let r ← ofOption .decodeError parse
  let o ← (buildR1CS r).mapError fun _ => GoError.indexOutOfRange
  let _w := buildWitnesses o.cs o.publicVariables o.privateVariables
    o.nPublicVariables o.nPrivateVariables
  let _pk ← ofOption .decodeError (readPK (stringBytes provingKey))
  let bs ← ofOption .backendError proveBytes
  .ok (rawString bs)

/-- `Preprocess` of `src/gnark_backend_ffi/main.go`: serialized proving and
verifying keys returned as raw bytes-as-string. -/
def Preprocess (parse : Option RawR1CS)
    (setup : Option (List Nat × List Nat)) : Except GoError (String × String) := do
  let r ← ofOption .decodeError parse
  let _o ← (buildR1CS r).mapError fun _ => GoError.indexOutOfRange
  let kb ← ofOption .backendError setup
  .ok (rawString kb.1, rawString kb.2)

/-- `VerifyWithVK` of `src/gnark_backend_ffi/main.go`: the proof and
verifying-key strings are fed to the external `ReadFrom` deserializers
byte for byte (`bytes.NewReader([]byte(s))` — no hex-decode step in this
revision), each failure being a `log.Fatal`; `verify` is the external
`groth16.Verify` call, whose failure is returned as the normal value
`false`. -/
def VerifyWithVK (parse : Option RawR1CS) (proof verifyingKey : String)
    (readProof : List Nat → Option ProofT) (readVK : List Nat → Option VKT)
    (verify : ProofT → VKT → List Felt → Option BackendErr) : Except GoError Bool := do
  let r ← ofOption .decodeError parse
  let o ← (buildR1CS r).mapError fun _ => GoError.indexOutOfRange
  let w := buildWitnesses o.cs o.publicVariables o.privateVariables
    o.nPublicVariables o.nPrivateVariables
  let p ← ofOption .decodeError (readProof (stringBytes proof))
  let vk ← ofOption .decodeError (readVK (stringBytes verifyingKey))
  let publicInputs := w.publicPart
  match verify p vk publicInputs with
  | some _ => .ok false
  | none => .ok true

/-- `VerifyWithMeta` of `src/gnark_backend_ffi/main.go`: as `VerifyWithVK`
but the verifying key comes from an internal `groth16.Setup` run (after the
proof is deserialized from its raw bytes, in source order). -/
def VerifyWithMeta (parse : Option RawR1CS) (proof : String)
    (readProof : List Nat → Option ProofT) (setupVK : Option VKT)
    (verify : ProofT → VKT → List Felt → Option BackendErr) : Except GoError Bool := do
  let r ← ofOption .decodeError parse
  let o ← (buildR1CS r).mapError fun _ => GoError.indexOutOfRange
  let w := buildWitnesses o.cs o.publicVariables o.privateVariables
    o.nPublicVariables o.nPrivateVariables
  let p ← ofOption .decodeError (readProof (stringBytes proof))
  let vk ← ofOption .backendError setupVK
  let publicInputs := w.publicPart
  match verify p vk publicInputs with
  | some _ => .ok false
  | none => .ok true

end FfiMain

namespace Part000

open Gnark

/-- `ProveWithMeta` of the unnamed revision: identical flow, but the
returned string is `hex.EncodeToString(serialized_proof.Bytes())`. -/
def ProveWithMeta (parse : Option RawR1CS) (setup : Option PKT)
    (proveBytes : Option (List Nat)) : Except GoError String := do
  let r ← ofOption .decodeError parse
  let o ← (buildR1CS r).mapError fun _ => GoError.indexOutOfRange
  let _w := buildWitnesses o.cs o.publicVariables o.privateVariables
    o.nPublicVariables o.nPrivateVariables
  let _pk ← ofOption .backendError setup
  let bs ← ofOption .backendError proveBytes
  .ok (hexEncode bs)

/-- `ProveWithPK` of the unnamed revision: the proving key arrives
hex-encoded (`hex.DecodeString` then `ReadFrom`), and the proof is returned
hex-encoded. -/
def ProveWithPK (parse : Option RawR1CS) (encodedProvingKey : String)
    (readPK : List Nat → Option PKT) (proveBytes : Option (List Nat)) :
    Except GoError String := do
  let r ← ofOption .decodeError parse
  let o ← (buildR1CS r).mapError fun _ => GoError.indexOutOfRange
  let _w := buildWitnesses o.cs o.publicVariables o.privateVariables
    o.nPublicVariables o.nPrivateVariables
  let decodedPK ← ofOption .decodeError (hexDecode encodedProvingKey)
  let _pk ← ofOption .decodeError (readPK decodedPK)
  let bs ← ofOption .backendError proveBytes
  .ok (hexEncode bs)

/-- `Preprocess` of the unnamed revision: both serialized keys are returned
hex-encoded. -/
def Preprocess (parse : Option RawR1CS)
    (setup : Option (List Nat × List Nat)) : Except GoError (String × String) := do
  let r ← ofOption .decodeError parse
  let _o ← (buildR1CS r).mapError fun _ => GoError.indexOutOfRange
  let kb ← ofOption .backendError setup
  .ok (hexEncode kb.1, hexEncode kb.2)

/-- `VerifyWithVK` of the unnamed revision.  `readProof` and `readVK` are the
external `ReadFrom` deserializers, `verify` the external `groth16.Verify`
call (returning `some` error on verification failure, `none` on success).
Malformed inputs abort (`log.Fatal`, modelled as `.error`); a verification
failure is the normal return value `false`. -/
def VerifyWithVK (parse : Option RawR1CS) (encodedProof encodedVerifyingKey : String)
    (readProof : List Nat → Option ProofT) (readVK : List Nat → Option VKT)
    (verify : ProofT → VKT → List Felt → Option BackendErr) : Except GoError Bool := do
  let r ← ofOption .decodeError parse
  let o ← (buildR1CS r).mapError fun _ => GoError.indexOutOfRange
  let w := buildWitnesses o.cs o.publicVariables o.privateVariables
    o.nPublicVariables o.nPrivateVariables
  let decodedProof ← ofOption .decodeError (hexDecode encodedProof)
  let p ← ofOption .decodeError (readProof decodedProof)
  let decodedVK ← ofOption .decodeError (hexDecode encodedVerifyingKey)
  let vk ← ofOption .decodeError (readVK decodedVK)
  let publicInputs := w.publicPart
  match verify p vk publicInputs with
  | some _ => .ok false
  | none => .ok true

/-- `VerifyWithMeta` of the unnamed revision: as `VerifyWithVK` but the
verifying key comes from an internal `groth16.Setup` run. -/
def VerifyWithMeta (parse : Option RawR1CS) (encodedProof : String)
    (readProof : List Nat → Option ProofT) (setupVK : Option VKT)
    (verify : ProofT → VKT → List Felt → Option BackendErr) : Except GoError Bool := do
  let r ← ofOption .decodeError parse
  let o ← (buildR1CS r).mapError fun _ => GoError.indexOutOfRange
  let w := buildWitnesses o.cs o.publicVariables o.privateVariables
    o.nPublicVariables o.nPrivateVariables
  let decodedProof ← ofOption .decodeError (hexDecode encodedProof)
  let p ← ofOption .decodeError (readProof decodedProof)
  let vk ← ofOption .backendError setupVK
  let publicInputs := w.publicPart
  match verify p vk publicInputs with
  | some _ => .ok false
  | none => .ok true

end Part000

namespace Gnark

/-- Transcription of the claimed shape of a gate's accumulated mul-terms:
one fresh internal variable per `MulTerm`, tagged with the term's
coefficient, starting at internal counter `nInt`.  Used as the
specification side of the refinement statements. -/
def specMulTerms (nInt : Nat) : List MulTerm → LinearExpression
  | [] => []
  | mt :: rest => (mt.coefficient, Wire.internal nInt) :: specMulTerms (nInt + 1) rest

/-- Transcription of the claimed shape of a gate's accumulated add-terms:
one term `coefficient * table[sum]` per `AddTerm`. -/
def specAddTerms (table : List Wire) : List AddTerm → LinearExpression
  | [] => []
  | t :: rest => (t.coefficient, table.getD t.sum (Wire.internal 0)) :: specAddTerms table rest

/-- Transcription of the claimed constraint list: one constraint per gate,
`L = {1 * one}`, `R` the gate's mul-terms then add-terms, `O = oExpr`,
with the internal-variable counter advanced by the number of mul-terms of
each gate.  The gate's `constantTerm` does not occur. -/
def specConstraintsList (table : List Wire) (one : Wire) (oExpr : LinearExpression) :
    Nat → List RawGate → List R1C
  | _, [] => []
  | nInt, g :: rest =>
      ⟨[(coeffOne, one)], specMulTerms nInt g.mulTerms ++ specAddTerms table g.addTerms, oExpr⟩
        :: specConstraintsList table one oExpr (nInt + g.mulTerms.length) rest

/-- All gate indices in range: every mul-term's factors index into `values`
and every add-term's `sum` indexes into the allocated-variable table. -/
def GatesBounded (values : List Felt) (table : List Wire) (gates : List RawGate) : Prop :=
  ∀ g ∈ gates,
    (∀ mt ∈ g.mulTerms, mt.multiplicand < values.length ∧ mt.multiplier < values.length) ∧
    (∀ t ∈ g.addTerms, t.sum < table.length)

/-- Invariant of the allocation loop relating the counters to the vectors. -/
def AllocInv (st : AllocState) : Prop :=
  st.publicVariables.length = st.nPublicVariables ∧
  st.privateVariables.length = st.nPrivateVariables ∧
  st.cs.nbPublic = st.nPublicVariables ∧
  st.cs.nbSecret = st.nPrivateVariables ∧
  st.table.length = st.nPublicVariables + st.nPrivateVariables ∧
  st.cs.nbInternal = 0 ∧
  st.cs.constraints = []

/-- The fr value of the coefficient hex constant used throughout the sample
circuit of `main()`: the fr modulus minus one. -/
def coefMinusOne : Felt := frModulus - 1

/-- The four gates of the sample circuit embedded in `main()` of
`src/gnark_backend_ffi/main.go` (coefficients as deserialized by
`structs.MulTerm` and `structs.AddTerm`). -/
def mainGates : List RawGate :=
  [⟨[], [⟨1, 1⟩, ⟨coefMinusOne, 2⟩, ⟨coefMinusOne, 3⟩], 0⟩,
   ⟨[⟨1, 3, 4⟩], [⟨coefMinusOne, 5⟩], 0⟩,
   ⟨[⟨1, 3, 5⟩], [⟨coefMinusOne, 3⟩], 0⟩,
   ⟨[], [⟨coefMinusOne, 5⟩], 1⟩]

/-- The hex-encoded `values` blob of the sample circuit embedded in
`main()` of `src/gnark_backend_ffi/main.go`. -/
def mainValuesBlob : String :=
  "00000006000000000000000000000000000000000000000000000000000000000000000100000000000000000000000000000000000000000000000000000000000000020000000000000000000000000000000000000000000000000000000000000000000000000000000000000000000000000000000000000000000000000000000000000000000000000000000000000000000000000000000000000000000000000000000000000000000000000000000000000000000000000000000000000000"

/-- The sample circuit as claim C6 reads it: seven values, the length prefix
taken as a value. -/
def c6InputClaim : RawR1CS :=
  ⟨mainGates, [2], [6, 1, 2, 0, 0, 0, 0], 7, 11⟩

/-- The sample circuit as deserialization actually yields it: the six values
of the blob after the 4-byte length prefix. -/
def c6InputActual : RawR1CS :=
  ⟨mainGates, [2], [1, 2, 0, 0, 0, 0], 7, 11⟩

/-- A minimal well-formed circuit used to instantiate hypotheses in the
witness theorems: two values, position 1 public, a single gate with one
mul-term and one add-term. -/
def sampleCircuit : RawR1CS :=
  ⟨[⟨[⟨3, 0, 1⟩], [⟨2, 0⟩], 0⟩], [1], [4, 7], 2, 1⟩

/-- A circuit with no public inputs and one value: the allocation loop body
never runs for it. -/
def emptyPubCircuit : RawR1CS :=
  ⟨[], [], [1], 1, 0⟩

/-- A circuit with two public-input positions and a single value: the
allocation loop body runs twice for the one value. -/
def twoPubCircuit : RawR1CS :=
  ⟨[], [1, 2], [5], 1, 0⟩

/-- A circuit whose single gate references `sum` index 5 while the
allocated-variable table has a single entry. -/
def badSumCircuit : RawR1CS :=
  ⟨[⟨[], [⟨1, 5⟩], 0⟩], [1], [1], 1, 1⟩

/-- The compiled output of `FfiMain.buildR1CS` on `sampleCircuit`. -/
def sampleOutFfi : BuildOut :=
  ⟨⟨2, 1, 2, [⟨[(coeffOne, Wire.pub 1)], [(3, Wire.internal 1), (2, Wire.pub 0)],
      [(coeffOne, Wire.internal 0)]⟩]⟩,
   [4], [7], 1, 1, [Wire.pub 0, Wire.secret 0]⟩

/-- The compiled output of `Part000.buildR1CS` on `sampleCircuit`. -/
def sampleOutPart : BuildOut :=
  ⟨⟨2, 1, 1, [⟨[(coeffOne, Wire.pub 1)], [(3, Wire.internal 0), (2, Wire.pub 0)], []⟩]⟩,
   [4], [7], 1, 1, [Wire.pub 0, Wire.secret 0]⟩

end Gnark

namespace Gnark

theorem sendAll_eq : ∀ (l acc : List Felt), sendAll acc l = acc ++ l := by
  intro l
  induction l with
  | nil => intro acc; simp [sendAll]
  | cons v rest ih => intro acc; rw [sendAll, ih]; simp

theorem producerStream_eq (pv sv : List Felt) : producerStream pv sv = pv ++ sv := by
  rw [producerStream, sendAll_eq, sendAll_eq]
  simp

theorem getValue_lt {vs : List Felt} {i : Nat} {v : Felt}
    (h : getValue vs i = .ok v) : i < vs.length := by
  by_cases hlt : i < vs.length
  · exact hlt
  · simp [getValue, hlt] at h

theorem getWire_ok {table : List Wire} {i : Nat} {w : Wire}
    (h : getWire table i = .ok w) :
    i < table.length ∧ w = table.getD i (Wire.internal 0) := by
  by_cases hlt : i < table.length
  · refine ⟨hlt, ?_⟩
    simp only [getWire, if_pos hlt, Except.ok.injEq] at h
    exact h.symm
  · simp [getWire, hlt] at h

theorem processMulTerms_ok (values : List Felt) :
    ∀ (mts : List MulTerm) (nInt : Nat) (terms : LinearExpression)
      (res : Nat × LinearExpression),
      processMulTerms values nInt terms mts = .ok res →
      res.1 = nInt + mts.length ∧
      res.2 = terms ++ specMulTerms nInt mts ∧
      ∀ mt ∈ mts, mt.multiplicand < values.length ∧ mt.multiplier < values.length := by
  intro mts
  induction mts with
  | nil =>
    intro nInt terms res h
    simp only [processMulTerms, Except.ok.injEq] at h
    subst h
    simp [specMulTerms]
  | cons mt rest ih =>
    intro nInt terms res h
    cases h1 : getValue values mt.multiplicand with
    | error e => simp [processMulTerms, h1] at h
    | ok v1 =>
      cases h2 : getValue values mt.multiplier with
      | error e => simp [processMulTerms, h1, h2] at h
      | ok v2 =>
        simp only [processMulTerms, h1, h2] at h
        obtain ⟨ha, hb, hc⟩ := ih (nInt + 1) (terms ++ [(mt.coefficient, Wire.internal nInt)]) res h
        refine ⟨by simpa using by omega, ?_, ?_⟩
        · rw [hb, specMulTerms]
          simp
        · intro mt2 hmem
          rcases List.mem_cons.mp hmem with rfl | hmem2
          · exact ⟨getValue_lt h1, getValue_lt h2⟩
          · exact hc mt2 hmem2

theorem processAddTerms_ok (table : List Wire) :
    ∀ (ats : List AddTerm) (terms terms2 : LinearExpression),
      processAddTerms table terms ats = .ok terms2 →
      terms2 = terms ++ specAddTerms table ats ∧
      ∀ t ∈ ats, t.sum < table.length := by
  intro ats
  induction ats with
  | nil =>
    intro terms terms2 h
    simp only [processAddTerms, Except.ok.injEq] at h
    subst h
    simp [specAddTerms]
  | cons t rest ih =>
    intro terms terms2 h
    cases h1 : getWire table t.sum with
    | error e => simp [processAddTerms, h1] at h
    | ok w =>
      simp only [processAddTerms, h1] at h
      obtain ⟨hlt, hw⟩ := getWire_ok h1
      obtain ⟨ha, hb⟩ := ih (terms ++ [(t.coefficient, w)]) terms2 h
      refine ⟨?_, ?_⟩
      · rw [ha, specAddTerms, hw]
        simp
      · intro t2 hmem
        rcases List.mem_cons.mp hmem with rfl | hmem2
        · exact hlt
        · exact hb t2 hmem2

theorem specConstraintsList_length (table : List Wire) (one : Wire)
    (oExpr : LinearExpression) :
    ∀ (n : Nat) (gates : List RawGate),
      (specConstraintsList table one oExpr n gates).length = gates.length := by
  intro n gates
  induction gates generalizing n with
  | nil => simp [specConstraintsList]
  | cons g rest ih => simp [specConstraintsList, ih]

theorem processGates_ok (values : List Felt) (table : List Wire) (one : Wire)
    (oExpr : LinearExpression) :
    ∀ (gates : List RawGate) (cs cs2 : CS),
      processGates values table one oExpr cs gates = .ok cs2 →
      cs2.nbPublic = cs.nbPublic ∧ cs2.nbSecret = cs.nbSecret ∧
      cs2.constraints =
        cs.constraints ++ specConstraintsList table one oExpr cs.nbInternal gates ∧
      GatesBounded values table gates := by
  intro gates
  induction gates with
  | nil =>
    intro cs cs2 h
    simp only [processGates, Except.ok.injEq] at h
    subst h
    simp [specConstraintsList, GatesBounded]
  | cons g rest ih =>
    intro cs cs2 h
    cases h1 : processMulTerms values cs.nbInternal [] g.mulTerms with
    | error e => simp [processGates, h1] at h
    | ok p =>
      obtain ⟨n1, terms1⟩ := p
      cases h2 : processAddTerms table terms1 g.addTerms with
      | error e => simp [processGates, h1, h2] at h
      | ok terms2 =>
        simp only [processGates, h1, h2] at h
        obtain ⟨hm1, hm2, hm3⟩ :=
          processMulTerms_ok values g.mulTerms cs.nbInternal [] (n1, terms1) h1
        obtain ⟨ha1, ha2⟩ := processAddTerms_ok table g.addTerms terms1 terms2 h2
        obtain ⟨hg1, hg2, hg3, hg4⟩ := ih _ cs2 h
        simp only at hg1 hg2 hg3
        refine ⟨hg1, hg2, ?_, ?_⟩
        · rw [hg3, specConstraintsList]
          simp only at hm1 hm2
          rw [ha1, hm2, ← hm1]
          simp
        · intro g2 hmem
          rcases List.mem_cons.mp hmem with rfl | hmem2
          · exact ⟨hm3, ha2⟩
          · exact hg4 g2 hmem2

theorem processGates_not_ok (values : List Felt) (table : List Wire) (one : Wire)
    (oExpr : LinearExpression) (gates : List RawGate) (cs : CS)
    (hbad : ¬ GatesBounded values table gates) :
    processGates values table one oExpr cs gates = .error .indexOutOfRange := by
  cases hres : processGates values table one oExpr cs gates with
  | ok cs2 =>
    exact absurd (processGates_ok values table one oExpr gates cs cs2 hres).2.2.2 hbad
  | error e => cases e; rfl

theorem addPublicVar_inv {st : AllocState} (v : Felt) (h : AllocInv st) :
    AllocInv (addPublicVar st v) := by
  obtain ⟨h1, h2, h3, h4, h5, h6, h7⟩ := h
  refine ⟨?_, ?_, ?_, ?_, ?_, ?_, ?_⟩ <;>
    simp [addPublicVar, h1, h2, h3, h4, h5, h6, h7] <;> omega

theorem addSecretVar_inv {st : AllocState} (v : Felt) (h : AllocInv st) :
    AllocInv (addSecretVar st v) := by
  obtain ⟨h1, h2, h3, h4, h5, h6, h7⟩ := h
  refine ⟨?_, ?_, ?_, ?_, ?_, ?_, ?_⟩ <;>
    simp [addSecretVar, h1, h2, h3, h4, h5, h6, h7] <;> omega

theorem allocInner_inv (i : Nat) (v : Felt) :
    ∀ (ps : List Nat) (st : AllocState), AllocInv st → AllocInv (allocInner i v st ps) := by
  intro ps
  induction ps with
  | nil => intro st h; simpa [allocInner] using h
  | cons p rest ih =>
    intro st h
    rw [allocInner]
    apply ih
    by_cases hc : (i + 1) % 4294967296 = p
    · simpa [hc] using addPublicVar_inv v h
    · simpa [hc] using addSecretVar_inv v h

theorem allocLoop_inv (pubs : List Nat) :
    ∀ (vs : List Felt) (i : Nat) (st : AllocState), AllocInv st →
      AllocInv (allocLoop pubs i st vs) := by
  intro vs
  induction vs with
  | nil => intro i st h; simpa [allocLoop] using h
  | cons v rest ih =>
    intro i st h
    rw [allocLoop]
    exact ih (i + 1) _ (allocInner_inv i v pubs st h)

theorem allocOf_inv (r : RawR1CS) : AllocInv (allocOf r) :=
  allocLoop_inv r.publicInputs r.values 0 initAlloc
    (by simp [AllocInv, initAlloc, initCS])

end Gnark

namespace FfiMain

open Gnark

theorem buildR1CS_ok_parts_ffi {r : RawR1CS} {o : BuildOut}
    (h : FfiMain.buildR1CS r = .ok o) :
    o.publicVariables = (allocOf r).publicVariables ∧
    o.privateVariables = (allocOf r).privateVariables ∧
    o.nPublicVariables = (allocOf r).nPublicVariables ∧
    o.nPrivateVariables = (allocOf r).nPrivateVariables ∧
    o.table = (allocOf r).table ∧
    o.cs.nbPublic = (allocOf r).nPublicVariables + 1 ∧
    o.cs.nbSecret = (allocOf r).nPrivateVariables ∧
    o.cs.constraints =
      specConstraintsList (allocOf r).table (Wire.pub (allocOf r).nPublicVariables)
        [(coeffOne, Wire.internal 0)] 1 r.gates ∧
    GatesBounded r.values (allocOf r).table r.gates := by
  obtain ⟨e1, e2, e3, e4, e5, e6, e7⟩ := allocOf_inv r
  simp only [FfiMain.buildR1CS] at h
  split at h
  · exact absurd h (by simp)
  · rename_i cs3 heq
    obtain ⟨p1, p2, p3, p4⟩ := processGates_ok _ _ _ _ _ _ _ heq
    simp only [Except.ok.injEq] at h
    subst h
    dsimp only at p1 p2 p3 ⊢
    refine ⟨rfl, rfl, rfl, rfl, rfl, by omega, by omega, ?_, p4⟩
    rw [p3, e3, e6, e7]
    simp

end FfiMain

namespace Part000

open Gnark

theorem buildR1CS_ok_parts_part {r : RawR1CS} {o : BuildOut}
    (h : Part000.buildR1CS r = .ok o) :
    o.publicVariables = (allocOf r).publicVariables ∧
    o.privateVariables = (allocOf r).privateVariables ∧
    o.nPublicVariables = (allocOf r).nPublicVariables ∧
    o.nPrivateVariables = (allocOf r).nPrivateVariables ∧
    o.table = (allocOf r).table ∧
    o.cs.nbPublic = (allocOf r).nPublicVariables + 1 ∧
    o.cs.nbSecret = (allocOf r).nPrivateVariables ∧
    o.cs.constraints =
      specConstraintsList (allocOf r).table (Wire.pub (allocOf r).nPublicVariables)
        [] 0 r.gates ∧
    GatesBounded r.values (allocOf r).table r.gates := by
  obtain ⟨e1, e2, e3, e4, e5, e6, e7⟩ := allocOf_inv r
  simp only [Part000.buildR1CS] at h
  split at h
  · exact absurd h (by simp)
  · rename_i cs2 heq
    obtain ⟨p1, p2, p3, p4⟩ := processGates_ok _ _ _ _ _ _ _ heq
    simp only [Except.ok.injEq] at h
    subst h
    dsimp only at p1 p2 p3 ⊢
    refine ⟨rfl, rfl, rfl, rfl, rfl, by omega, by omega, ?_, p4⟩
    rw [p3, e3, e6, e7]
    simp

end Part000

namespace Gnark

/-- C1: the claim asserts one allocated variable per entry of `values` for
every length of `publicInputs`.  The public/secret branch of the allocation
loop sits inside the loop over `publicInputs`, so the code allocates one
variable per (value, public-input) pair instead: with no public input and one
value the table is empty, and with two public-input positions and one value
the table has two entries.  Evaluated on both failing inputs (both revisions
share the loop verbatim). -/
theorem c1_allocation_bug :
    (FfiMain.buildR1CS emptyPubCircuit).map (fun o => o.table.length) = .ok 0 ∧
    (Part000.buildR1CS emptyPubCircuit).map (fun o => o.table.length) = .ok 0 ∧
    emptyPubCircuit.values.length = 1 ∧
    (FfiMain.buildR1CS twoPubCircuit).map (fun o => o.table.length) = .ok 2 ∧
    (Part000.buildR1CS twoPubCircuit).map (fun o => o.table.length) = .ok 2 ∧
    twoPubCircuit.values.length = 1 := by
  decide

/-- C2: the claim asserts that the partition vectors together hold exactly
the entries of `values`.  On a circuit with no public input and one value
both partition vectors are empty, and on a circuit with two public-input
positions and the single value 5 the concatenation is the duplicated list
5, 5 — values are dropped respectively duplicated by the same nested-loop
slip as in C1. -/
theorem c2_partition_bug :
    (FfiMain.buildR1CS emptyPubCircuit).map
        (fun o => o.publicVariables.length + o.privateVariables.length) = .ok 0 ∧
    emptyPubCircuit.values.length = 1 ∧
    (FfiMain.buildR1CS twoPubCircuit).map
        (fun o => o.publicVariables ++ o.privateVariables) = .ok [5, 5] ∧
    (Part000.buildR1CS twoPubCircuit).map
        (fun o => o.publicVariables ++ o.privateVariables) = .ok [5, 5] ∧
    twoPubCircuit.values = [5] := by
  decide

/-- C9: compilation and witness assembly are deterministic — both compilers
and the assembler are pure functions of their inputs in this embedding (the
channel handoff delivers a fixed ordered stream, see C3), so repeated runs
agree definitionally. -/
theorem c9_deterministic (r : RawR1CS) (cs : CS) (pv sv : List Felt) (np ns : Nat) :
    FfiMain.buildR1CS r = FfiMain.buildR1CS r ∧
    Part000.buildR1CS r = Part000.buildR1CS r ∧
    buildWitnesses cs pv sv np ns = buildWitnesses cs pv sv np ns ∧
    (buildWitnesses cs pv sv np ns).publicPart =
      (buildWitnesses cs pv sv np ns).publicPart ∧
    (buildWitnesses cs pv sv np ns).vector.drop np =
      (buildWitnesses cs pv sv np ns).vector.drop np :=
  ⟨rfl, rfl, rfl, rfl, rfl⟩

/-- C6 counterexample: on the claim's reading of the boundary circuit (seven
values 6, 1, 2, 0, 0, 0, 0 with the one public input at position 2) the
compiler of `gnark_backend_ffi/main.go` allocates 1 public and 6 secret
input variables, not 2 and 5 as claimed, and every emitted constraint has
the single term 1 * ZERO as its `O` side, not an empty one. -/
theorem c6_counterexample :
    (FfiMain.buildR1CS c6InputClaim).map
        (fun o => (o.nPublicVariables, o.nPrivateVariables)) = .ok (1, 6) ∧
    ((1, 6) : Nat × Nat) ≠ (2, 5) ∧
    (FfiMain.buildR1CS c6InputClaim).map (fun o => o.cs.constraints.map R1C.O) =
      .ok (List.replicate 4 [(coeffOne, Wire.internal 0)]) ∧
    [(coeffOne, Wire.internal 0)] ≠ ([] : LinearExpression) := by
  decide

/-- C6 amended: the embedded `values` blob deserializes to the six field
elements 1, 2, 0, 0, 0, 0 (its leading 00000006 is the element count, which
the claim misread as a seventh value).  Compiling the four sample gates on
those six values with the public input at position 2 yields a constraint
system whose counters report 2 public variables (the position-2 input plus
the constant-one variable, allocated as 1 input public + 1) and 5 secret
variables, with exactly 4 constraints — one per gate — each having
L = the single term 1 * ONE and O = the single term 1 * ZERO on the fresh
unconstrained internal variable ZERO. -/
theorem c6_boundary_example :
    DeserializeFelts mainValuesBlob = some [1, 2, 0, 0, 0, 0] ∧
    (FfiMain.buildR1CS c6InputActual).map
        (fun o => (o.cs.nbPublic, o.cs.nbSecret, o.nPublicVariables,
          o.nPrivateVariables, o.cs.constraints.length)) = .ok (2, 5, 1, 5, 4) ∧
    (FfiMain.buildR1CS c6InputActual).map (fun o => o.cs.constraints.map R1C.L) =
      .ok (List.replicate 4 [(coeffOne, Wire.pub 1)]) ∧
    (FfiMain.buildR1CS c6InputActual).map (fun o => o.cs.constraints.map R1C.O) =
      .ok (List.replicate 4 [(coeffOne, Wire.internal 0)]) := by
  decide

/-- C4 counterexample: the claim asserts an empty `O` side for every emitted
constraint, but the compiler of `gnark_backend_ffi/main.go` emits
O = the single term 1 * ZERO (a fresh internal variable) on every
constraint, shown here on a concrete one-gate circuit. -/
theorem c4_counterexample :
    (FfiMain.buildR1CS sampleCircuit).map (fun o => o.cs.constraints.map R1C.O) =
      .ok [[(coeffOne, Wire.internal 0)]] ∧
    [(coeffOne, Wire.internal 0)] ≠ ([] : LinearExpression) := by
  decide

/-- C7 counterexample: `ProveWithMeta` of `gnark_backend_ffi/main.go`
returns the serialized proof bytes passed through as a raw string
(`serialized_proof.String()`), which differs from their hex encoding
already on the single byte 255. -/
theorem c7_counterexample :
    FfiMain.ProveWithMeta (some sampleCircuit) (some ⟨[]⟩) (some [255]) =
      .ok (rawString [255]) ∧
    rawString [255] ≠ hexEncode [255] := by
  decide

/-- C3: for every compiled output, the assembled witness is the
concatenation of the public vector followed by the private vector in that
exact order, the first `nPublicVariables` entries are declared public and
the next `nPrivateVariables` secret, and the producer goroutine delivers
exactly the elements of the two vectors in that order over the channel
before closing it. -/
theorem c3_witness_assembly (r : RawR1CS) (o : BuildOut)
    (h : FfiMain.buildR1CS r = .ok o) :
    producerStream o.publicVariables o.privateVariables =
      o.publicVariables ++ o.privateVariables ∧
    (buildWitnesses o.cs o.publicVariables o.privateVariables
        o.nPublicVariables o.nPrivateVariables).vector =
      o.publicVariables ++ o.privateVariables ∧
    (buildWitnesses o.cs o.publicVariables o.privateVariables
        o.nPublicVariables o.nPrivateVariables).nbPublic = o.nPublicVariables ∧
    (buildWitnesses o.cs o.publicVariables o.privateVariables
        o.nPublicVariables o.nPrivateVariables).nbSecret = o.nPrivateVariables ∧
    (buildWitnesses o.cs o.publicVariables o.privateVariables
        o.nPublicVariables o.nPrivateVariables).publicPart = o.publicVariables ∧
    (buildWitnesses o.cs o.publicVariables o.privateVariables
        o.nPublicVariables o.nPrivateVariables).vector.drop o.nPublicVariables =
      o.privateVariables := by
  obtain ⟨e1, e2, e3, e4, e5, e6, e7⟩ := allocOf_inv r
  obtain ⟨q1, q2, q3, q4, q5, q6, q7, q8, q9⟩ := FfiMain.buildR1CS_ok_parts_ffi h
  have hlp : o.publicVariables.length = o.nPublicVariables := by rw [q1, q3]; exact e1
  have hls : o.privateVariables.length = o.nPrivateVariables := by rw [q2, q4]; exact e2
  have hv : (buildWitnesses o.cs o.publicVariables o.privateVariables
      o.nPublicVariables o.nPrivateVariables).vector =
      o.publicVariables ++ o.privateVariables := by
    simp only [buildWitnesses, producerStream_eq]
    rw [← hlp, ← hls, ← List.length_append, List.take_length]
  refine ⟨producerStream_eq _ _, hv, rfl, rfl, ?_, ?_⟩
  · show ((buildWitnesses o.cs o.publicVariables o.privateVariables
      o.nPublicVariables o.nPrivateVariables).vector).take o.nPublicVariables =
      o.publicVariables
    rw [hv, ← hlp, List.take_left]
  · rw [hv, ← hlp, List.drop_left]

/-- C3 witness: the theorem instantiated on the concrete `sampleCircuit`
and its compiled output. -/
theorem c3_witness_assembly_w :
    producerStream sampleOutFfi.publicVariables sampleOutFfi.privateVariables =
      sampleOutFfi.publicVariables ++ sampleOutFfi.privateVariables ∧
    (buildWitnesses sampleOutFfi.cs sampleOutFfi.publicVariables
        sampleOutFfi.privateVariables sampleOutFfi.nPublicVariables
        sampleOutFfi.nPrivateVariables).vector =
      sampleOutFfi.publicVariables ++ sampleOutFfi.privateVariables ∧
    (buildWitnesses sampleOutFfi.cs sampleOutFfi.publicVariables
        sampleOutFfi.privateVariables sampleOutFfi.nPublicVariables
        sampleOutFfi.nPrivateVariables).nbPublic = sampleOutFfi.nPublicVariables ∧
    (buildWitnesses sampleOutFfi.cs sampleOutFfi.publicVariables
        sampleOutFfi.privateVariables sampleOutFfi.nPublicVariables
        sampleOutFfi.nPrivateVariables).nbSecret = sampleOutFfi.nPrivateVariables ∧
    (buildWitnesses sampleOutFfi.cs sampleOutFfi.publicVariables
        sampleOutFfi.privateVariables sampleOutFfi.nPublicVariables
        sampleOutFfi.nPrivateVariables).publicPart = sampleOutFfi.publicVariables ∧
    (buildWitnesses sampleOutFfi.cs sampleOutFfi.publicVariables
        sampleOutFfi.privateVariables sampleOutFfi.nPublicVariables
        sampleOutFfi.nPrivateVariables).vector.drop sampleOutFfi.nPublicVariables =
      sampleOutFfi.privateVariables :=
  c3_witness_assembly sampleCircuit sampleOutFfi (by decide)

/-- C4 amended: each gate compiles to exactly one constraint whose L side is
the single term 1 * ONE and whose R side is the accumulated linear
expression — one fresh internal variable per mul-term tagged with its
coefficient, then one term coefficient * table(sum) per add-term — with the
gate's constant term never incorporated and no extra constraint emitted for
any mul-term product.  The O side is the single term 1 * ZERO (a fresh,
otherwise unconstrained internal variable) in the `gnark_backend_ffi/main.go`
revision and empty in the unnamed revision. -/
theorem c4_constraint_shape (r : RawR1CS) (o1 o2 : BuildOut)
    (h1 : FfiMain.buildR1CS r = .ok o1) (h2 : Part000.buildR1CS r = .ok o2) :
    o1.cs.constraints =
      specConstraintsList o1.table (Wire.pub o1.nPublicVariables)
        [(coeffOne, Wire.internal 0)] 1 r.gates ∧
    o2.cs.constraints =
      specConstraintsList o2.table (Wire.pub o2.nPublicVariables) [] 0 r.gates ∧
    o1.cs.constraints.length = r.gates.length ∧
    o2.cs.constraints.length = r.gates.length := by
  obtain ⟨q1, q2, q3, q4, q5, q6, q7, q8, q9⟩ := FfiMain.buildR1CS_ok_parts_ffi h1
  obtain ⟨w1, w2, w3, w4, w5, w6, w7, w8, w9⟩ := Part000.buildR1CS_ok_parts_part h2
  refine ⟨?_, ?_, ?_, ?_⟩
  · rw [q8, q5, q3]
  · rw [w8, w5, w3]
  · rw [q8, specConstraintsList_length]
  · rw [w8, specConstraintsList_length]

/-- C4 amended, witness: the shape theorem instantiated on `sampleCircuit`
and the compiled outputs of both revisions. -/
theorem c4_constraint_shape_w :
    sampleOutFfi.cs.constraints =
      specConstraintsList sampleOutFfi.table (Wire.pub sampleOutFfi.nPublicVariables)
        [(coeffOne, Wire.internal 0)] 1 sampleCircuit.gates ∧
    sampleOutPart.cs.constraints =
      specConstraintsList sampleOutPart.table (Wire.pub sampleOutPart.nPublicVariables)
        [] 0 sampleCircuit.gates ∧
    sampleOutFfi.cs.constraints.length = sampleCircuit.gates.length ∧
    sampleOutPart.cs.constraints.length = sampleCircuit.gates.length :=
  c4_constraint_shape sampleCircuit sampleOutFfi sampleOutPart (by decide) (by decide)

/-- C5: a gate referencing a multiplicand or multiplier index outside
`values`, or a sum index outside the allocated-variable table, makes both
revisions of the compiler fail with the index-out-of-range error instead of
reading out of bounds or defaulting. -/
theorem c5_index_out_of_range (r : RawR1CS)
    (h : ∃ g ∈ r.gates,
        (∃ mt ∈ g.mulTerms,
          r.values.length ≤ mt.multiplicand ∨ r.values.length ≤ mt.multiplier) ∨
        (∃ t ∈ g.addTerms, (allocOf r).table.length ≤ t.sum)) :
    FfiMain.buildR1CS r = .error .indexOutOfRange ∧
    Part000.buildR1CS r = .error .indexOutOfRange := by
  have hbad : ¬ GatesBounded r.values (allocOf r).table r.gates := by
    obtain ⟨g, hg, hviol⟩ := h
    intro hb
    obtain ⟨hmul, hadd⟩ := hb g hg
    rcases hviol with ⟨mt, hmt, hv⟩ | ⟨t, ht, hv⟩
    · obtain ⟨l1, l2⟩ := hmul mt hmt
      rcases hv with hv | hv <;> omega
    · have := hadd t ht
      omega
  constructor
  · simp only [FfiMain.buildR1CS]
    rw [processGates_not_ok r.values (allocOf r).table _ _ r.gates _ hbad]
  · simp only [Part000.buildR1CS]
    rw [processGates_not_ok r.values (allocOf r).table _ _ r.gates _ hbad]

/-- C5 witness: the rejection theorem instantiated on the concrete circuit
whose single gate uses sum index 5 against a one-entry table. -/
theorem c5_index_out_of_range_w :
    FfiMain.buildR1CS badSumCircuit = .error .indexOutOfRange ∧
    Part000.buildR1CS badSumCircuit = .error .indexOutOfRange :=
  c5_index_out_of_range badSumCircuit (by decide)

/-- C10: the constant-one public variable is allocated after the input
variables, so the constraint system of either revision counts one more
public variable than the `nPublicVariables` the witness declares public, and
the assembled witness vector has exactly `nPublicVariables +
nPrivateVariables` entries — no value is ever fed for the constant wire. -/
theorem c10_constant_wire_unfed (r : RawR1CS) (o1 o2 : BuildOut)
    (h1 : FfiMain.buildR1CS r = .ok o1) (h2 : Part000.buildR1CS r = .ok o2) :
    o1.cs.nbPublic = o1.nPublicVariables + 1 ∧
    (buildWitnesses o1.cs o1.publicVariables o1.privateVariables
        o1.nPublicVariables o1.nPrivateVariables).nbPublic = o1.nPublicVariables ∧
    (buildWitnesses o1.cs o1.publicVariables o1.privateVariables
        o1.nPublicVariables o1.nPrivateVariables).vector.length =
      o1.nPublicVariables + o1.nPrivateVariables ∧
    o2.cs.nbPublic = o2.nPublicVariables + 1 ∧
    (buildWitnesses o2.cs o2.publicVariables o2.privateVariables
        o2.nPublicVariables o2.nPrivateVariables).nbPublic = o2.nPublicVariables ∧
    (buildWitnesses o2.cs o2.publicVariables o2.privateVariables
        o2.nPublicVariables o2.nPrivateVariables).vector.length =
      o2.nPublicVariables + o2.nPrivateVariables := by
  obtain ⟨e1, e2, e3, e4, e5, e6, e7⟩ := allocOf_inv r
  obtain ⟨q1, q2, q3, q4, q5, q6, q7, q8, q9⟩ := FfiMain.buildR1CS_ok_parts_ffi h1
  obtain ⟨w1, w2, w3, w4, w5, w6, w7, w8, w9⟩ := Part000.buildR1CS_ok_parts_part h2
  have hlp1 : o1.publicVariables.length = o1.nPublicVariables := by rw [q1, q3]; exact e1
  have hls1 : o1.privateVariables.length = o1.nPrivateVariables := by rw [q2, q4]; exact e2
  have hlp2 : o2.publicVariables.length = o2.nPublicVariables := by rw [w1, w3]; exact e1
  have hls2 : o2.privateVariables.length = o2.nPrivateVariables := by rw [w2, w4]; exact e2
  refine ⟨by rw [q6, q3], rfl, ?_, by rw [w6, w3], rfl, ?_⟩
  · simp only [buildWitnesses, producerStream_eq, List.length_take, List.length_append,
      hlp1, hls1]
    omega
  · simp only [buildWitnesses, producerStream_eq, List.length_take, List.length_append,
      hlp2, hls2]
    omega

/-- C10 witness: the count theorem instantiated on `sampleCircuit` and the
compiled outputs of both revisions. -/
theorem c10_constant_wire_unfed_w :
    sampleOutFfi.cs.nbPublic = sampleOutFfi.nPublicVariables + 1 ∧
    (buildWitnesses sampleOutFfi.cs sampleOutFfi.publicVariables
        sampleOutFfi.privateVariables sampleOutFfi.nPublicVariables
        sampleOutFfi.nPrivateVariables).nbPublic = sampleOutFfi.nPublicVariables ∧
    (buildWitnesses sampleOutFfi.cs sampleOutFfi.publicVariables
        sampleOutFfi.privateVariables sampleOutFfi.nPublicVariables
        sampleOutFfi.nPrivateVariables).vector.length =
      sampleOutFfi.nPublicVariables + sampleOutFfi.nPrivateVariables ∧
    sampleOutPart.cs.nbPublic = sampleOutPart.nPublicVariables + 1 ∧
    (buildWitnesses sampleOutPart.cs sampleOutPart.publicVariables
        sampleOutPart.privateVariables sampleOutPart.nPublicVariables
        sampleOutPart.nPrivateVariables).nbPublic = sampleOutPart.nPublicVariables ∧
    (buildWitnesses sampleOutPart.cs sampleOutPart.publicVariables
        sampleOutPart.privateVariables sampleOutPart.nPublicVariables
        sampleOutPart.nPrivateVariables).vector.length =
      sampleOutPart.nPublicVariables + sampleOutPart.nPrivateVariables :=
  c10_constant_wire_unfed sampleCircuit sampleOutFfi sampleOutPart (by decide) (by decide)

/-- C7 amended: the entry points of the unnamed revision return the
backend's serialized proof and key bytes hex-encoded, while the
corresponding entry points of `gnark_backend_ffi/main.go` return the same
serialized bytes passed through as a raw string. -/
theorem c7_output_encoding (r : RawR1CS) (o1 o2 : BuildOut) (pk : PKT)
    (bs pkBytes vkBytes dk : List Nat) (epk pks : String)
    (readPK : List Nat → Option PKT)
    (h1 : FfiMain.buildR1CS r = .ok o1) (h2 : Part000.buildR1CS r = .ok o2)
    (hdk : hexDecode epk = some dk) (hrd : readPK dk = some pk)
    (hrd2 : readPK (stringBytes pks) = some pk) :
    Part000.ProveWithMeta (some r) (some pk) (some bs) = .ok (hexEncode bs) ∧
    Part000.ProveWithPK (some r) epk readPK (some bs) = .ok (hexEncode bs) ∧
    Part000.Preprocess (some r) (some (pkBytes, vkBytes)) =
      .ok (hexEncode pkBytes, hexEncode vkBytes) ∧
    FfiMain.ProveWithMeta (some r) (some pk) (some bs) = .ok (rawString bs) ∧
    FfiMain.ProveWithPK (some r) pks readPK (some bs) = .ok (rawString bs) ∧
    FfiMain.Preprocess (some r) (some (pkBytes, vkBytes)) =
      .ok (rawString pkBytes, rawString vkBytes) := by
  refine ⟨?_, ?_, ?_, ?_, ?_, ?_⟩ <;>
    simp [Part000.ProveWithMeta, Part000.ProveWithPK, Part000.Preprocess,
      FfiMain.ProveWithMeta, FfiMain.ProveWithPK, FfiMain.Preprocess,
      ofOption, h1, h2, hdk, hrd, hrd2, Except.mapError, bind, Except.bind]

/-- C7 amended, witness: the encoding theorem instantiated on
`sampleCircuit` with concrete key and proof bytes. -/
theorem c7_output_encoding_w :
    Part000.ProveWithMeta (some sampleCircuit) (some ⟨[9]⟩) (some [255, 0]) =
      .ok (hexEncode [255, 0]) ∧
    Part000.ProveWithPK (some sampleCircuit) "00" (fun _ => some ⟨[9]⟩)
        (some [255, 0]) = .ok (hexEncode [255, 0]) ∧
    Part000.Preprocess (some sampleCircuit) (some ([1], [2])) =
      .ok (hexEncode [1], hexEncode [2]) ∧
    FfiMain.ProveWithMeta (some sampleCircuit) (some ⟨[9]⟩) (some [255, 0]) =
      .ok (rawString [255, 0]) ∧
    FfiMain.ProveWithPK (some sampleCircuit) "A" (fun _ => some ⟨[9]⟩)
        (some [255, 0]) = .ok (rawString [255, 0]) ∧
    FfiMain.Preprocess (some sampleCircuit) (some ([1], [2])) =
      .ok (rawString [1], rawString [2]) :=
  c7_output_encoding sampleCircuit sampleOutFfi sampleOutPart ⟨[9]⟩ [255, 0] [1] [2]
    [0] "00" "A" (fun _ => some ⟨[9]⟩) (by decide) (by decide) (by decide) rfl rfl

/-- C8: on well-formed inputs the verify entry points of both revisions
(`VerifyWithVK` and `VerifyWithMeta` of `gnark_backend_ffi/main.go`, which
feed the proof and key strings to `ReadFrom` byte for byte, and of the
unnamed revision, which hex-decodes them first) return the boolean that is
true exactly when the backend `Verify` call reports success and false
exactly when it reports failure, as a normal return value; a malformed
circuit, proof or key input instead takes the fatal-abort path. -/
theorem c8_verify_boolean (r : RawR1CS) (o o1 : BuildOut) (ep ev badEp : String)
    (rp rv badRp : String) (pb vb : List Nat) (p : ProofT) (vk : VKT)
    (readProof : List Nat → Option ProofT) (readVK : List Nat → Option VKT)
    (verify : ProofT → VKT → List Felt → Option BackendErr)
    (h : Part000.buildR1CS r = .ok o) (h1 : FfiMain.buildR1CS r = .ok o1)
    (hep : hexDecode ep = some pb) (hp : readProof pb = some p)
    (hev : hexDecode ev = some vb) (hv : readVK vb = some vk)
    (hbad : hexDecode badEp = none)
    (hrp : readProof (stringBytes rp) = some p)
    (hrv : readVK (stringBytes rv) = some vk)
    (hbrp : readProof (stringBytes badRp) = none) :
    Part000.VerifyWithVK (some r) ep ev readProof readVK verify =
      .ok (verify p vk ((buildWitnesses o.cs o.publicVariables o.privateVariables
        o.nPublicVariables o.nPrivateVariables).publicPart)).isNone ∧
    Part000.VerifyWithMeta (some r) ep readProof (some vk) verify =
      .ok (verify p vk ((buildWitnesses o.cs o.publicVariables o.privateVariables
        o.nPublicVariables o.nPrivateVariables).publicPart)).isNone ∧
    Part000.VerifyWithVK none ep ev readProof readVK verify = .error .decodeError ∧
    Part000.VerifyWithVK (some r) badEp ev readProof readVK verify =
      .error .decodeError ∧
    FfiMain.VerifyWithVK (some r) rp rv readProof readVK verify =
      .ok (verify p vk ((buildWitnesses o1.cs o1.publicVariables o1.privateVariables
        o1.nPublicVariables o1.nPrivateVariables).publicPart)).isNone ∧
    FfiMain.VerifyWithMeta (some r) rp readProof (some vk) verify =
      .ok (verify p vk ((buildWitnesses o1.cs o1.publicVariables o1.privateVariables
        o1.nPublicVariables o1.nPrivateVariables).publicPart)).isNone ∧
    FfiMain.VerifyWithVK none rp rv readProof readVK verify = .error .decodeError ∧
    FfiMain.VerifyWithVK (some r) badRp rv readProof readVK verify =
      .error .decodeError := by
  have hcase : ∀ res : Option BackendErr,
      (match res with
        | some _ => (Except.ok false : Except GoError Bool)
        | none => Except.ok true) = .ok res.isNone := by
    intro res
    cases res <;> simp
  refine ⟨?_, ?_, ?_, ?_, ?_, ?_, ?_, ?_⟩
  · simp only [Part000.VerifyWithVK, ofOption, h, hep, hp, hev, hv, Except.mapError,
      bind, Except.bind]
    exact hcase _
  · simp only [Part000.VerifyWithMeta, ofOption, h, hep, hp, Except.mapError,
      bind, Except.bind]
    exact hcase _
  · simp [Part000.VerifyWithVK, ofOption, bind, Except.bind]
  · simp [Part000.VerifyWithVK, ofOption, h, hbad, Except.mapError, bind, Except.bind]
  · simp only [FfiMain.VerifyWithVK, ofOption, h1, hrp, hrv, Except.mapError,
      bind, Except.bind]
    exact hcase _
  · simp only [FfiMain.VerifyWithMeta, ofOption, h1, hrp, Except.mapError,
      bind, Except.bind]
    exact hcase _
  · simp [FfiMain.VerifyWithVK, ofOption, bind, Except.bind]
  · simp [FfiMain.VerifyWithVK, ofOption, h1, hbrp, Except.mapError, bind, Except.bind]

/-- C8 witness: the boolean-result theorem instantiated with concrete
decoders, an always-failing backend verifier, the malformed hex string zz
for the hex-decoding revision and the empty raw proof string (rejected by
the proof deserializer) for the raw-bytes revision. -/
theorem c8_verify_boolean_w :
    Part000.VerifyWithVK (some sampleCircuit) "aa" "bb"
        (fun bs => if bs = [] then none else some ⟨[170]⟩)
        (fun _ => some ⟨[187]⟩) (fun _ _ _ => some .failure) = .ok false ∧
    Part000.VerifyWithMeta (some sampleCircuit) "aa"
        (fun bs => if bs = [] then none else some ⟨[170]⟩)
        (some ⟨[187]⟩) (fun _ _ _ => some .failure) = .ok false ∧
    Part000.VerifyWithVK none "aa" "bb"
        (fun bs => if bs = [] then none else some ⟨[170]⟩)
        (fun _ => some ⟨[187]⟩) (fun _ _ _ => some .failure) = .error .decodeError ∧
    Part000.VerifyWithVK (some sampleCircuit) "zz" "bb"
        (fun bs => if bs = [] then none else some ⟨[170]⟩)
        (fun _ => some ⟨[187]⟩) (fun _ _ _ => some .failure) = .error .decodeError ∧
    FfiMain.VerifyWithVK (some sampleCircuit) "p" "k"
        (fun bs => if bs = [] then none else some ⟨[170]⟩)
        (fun _ => some ⟨[187]⟩) (fun _ _ _ => some .failure) = .ok false ∧
    FfiMain.VerifyWithMeta (some sampleCircuit) "p"
        (fun bs => if bs = [] then none else some ⟨[170]⟩)
        (some ⟨[187]⟩) (fun _ _ _ => some .failure) = .ok false ∧
    FfiMain.VerifyWithVK none "p" "k"
        (fun bs => if bs = [] then none else some ⟨[170]⟩)
        (fun _ => some ⟨[187]⟩) (fun _ _ _ => some .failure) = .error .decodeError ∧
    FfiMain.VerifyWithVK (some sampleCircuit) "" "k"
        (fun bs => if bs = [] then none else some ⟨[170]⟩)
        (fun _ => some ⟨[187]⟩) (fun _ _ _ => some .failure) = .error .decodeError :=
  c8_verify_boolean sampleCircuit sampleOutPart sampleOutFfi "aa" "bb" "zz"
    "p" "k" "" [170] [187] ⟨[170]⟩ ⟨[187]⟩
    (fun bs => if bs = [] then none else some ⟨[170]⟩)
    (fun _ => some ⟨[187]⟩) (fun _ _ _ => some .failure)
    (by decide) (by decide) (by decide) (by decide) (by decide) rfl (by decide)
    (by decide) rfl (by decide)

end Gnark

